import Mathlib

/-!
# Verification of the yawt segment-transcription pipeline

Shallow embedding of `src/yawt/transcription.py`.  Python floats are
modelled as rationals, Python lists as Lean lists, Python dicts carrying
fixed keys as structures.  The external collaborators (torch model,
processor/tokenizer, iso639 language table) are parameters: the set of
valid language codes is an explicit list, and the model invocation is an
oracle function whose outcomes range over success, timeout and error.
-/

namespace Yawt

/-- Truncation toward zero, the behaviour of the Python `int()` conversion
on a (rational-valued) float: the truncating division of the numerator by
the denominator (floor for nonnegative values, ceiling for negative ones). -/
def py_int (q : ℚ) : ℤ :=
  Int.tdiv q.num (q.den : ℤ)

/-- Python `str.lower()`: character-wise lowercasing. -/
def py_lower (s : String) : String :=
  ⟨s.data.map Char.toLower⟩

/-- Python string slicing `s[:n]`: the first `n` characters. -/
def py_str_take (s : String) (n : ℕ) : String :=
  ⟨s.data.take n⟩

/-- Python list slicing `l[lo:hi]` with step 1: negative indices count from
the end, and out-of-range bounds are clamped. -/
def py_slice (l : List α) (lo hi : ℤ) : List α :=
  let n : ℤ := l.length
  let norm : ℤ → ℤ := fun i => if i < 0 then max 0 (n + i) else min i n
  ((l.drop (norm lo).toNat).take ((norm hi).toNat - (norm lo).toNat))

/-- Python list indexing `l[i]` returning `none` where Python raises
`IndexError`; a negative index counts from the end. -/
def py_index (l : List α) (i : ℤ) : Option α :=
  if 0 ≤ i then l.get? i.toNat
  else if 0 ≤ (l.length : ℤ) + i then l.get? ((l.length : ℤ) + i).toNat else none

/-- Python string truthiness: the empty string is falsy. -/
def py_truthy_str (s : String) : Bool :=
  ! s.isEmpty

/-- Python truthiness of an optional string (`None` and `""` are falsy). -/
def py_truthy_opt : Option String → Bool
  | none => false
  | some s => ! s.isEmpty

/-- `is_valid_language_code` (transcription.py line 179): membership of the
lowercased token in the module-level `valid_codes` set.  That set is built
from the external iso639 table, so it is a parameter `validCodes` here. -/
def is_valid_language_code (validCodes : List String) (code : String) : Bool :=
  validCodes.contains (py_lower code)

/-- `aggregate_confidence` (transcription.py lines 148-161): arithmetic mean
of the per-token confidences, 0.0 on empty input. -/
def aggregate_confidence (token_confidences : List ℚ) : ℚ :=
  if token_confidences = [] then 0
  else token_confidences.sum / token_confidences.length

/-- One decoded token row together with the per-step score data of a
`GenerateOutput` object.  `sequences` is the token-string form of row 0 of
`outputs.sequences` (`none` models a missing `sequences` attribute);
`scores` abstracts `outputs.scores` after the softmax-max step of
`compute_per_token_confidence` (`none` models a missing attribute);
`decoded` is what `processor.batch_decode(...)[0]` returns for this output
(the tokenizer is external, so the decoded text is carried as data). -/
structure GenerateOutput where
  sequences : Option (List String)
  scores : Option (List ℚ)
  decoded : String
deriving DecidableEq, Repr

/-- `compute_per_token_confidence` (transcription.py lines 126-146): the
per-step maximum softmax probabilities when scores are present, otherwise
a fallback of 1.0 per position of the output sequence. -/
def compute_per_token_confidence (outputs : GenerateOutput) : List ℚ :=
  match outputs.scores with
  | some token_confidences => token_confidences
  | none => List.replicate (outputs.sequences.getD []).length 1

/-- Helper for `extract_language_token`: the Python expression
`token[2:-2]`, stripping two characters from each side. -/
def strip_marker (token : String) : String :=
  (token.drop 2).dropRight 2

/-- `extract_language_token` (transcription.py lines 182-194): scan the
first five tokens of the sequence; a `<|...|>` marker whose body is a
recognized language code is returned; the scan stops at the first token
that is neither a marker nor `<|startoftranscript|>`. -/
def extract_language_token (validCodes : List String) (tokens : List String) : Option String :=
  go (tokens.take 5)
where
  go : List String → Option String
  | [] => none
  | token :: rest =>
    if token.startsWith "<|" && token.endsWith "|>" then
      let lang_code := strip_marker token
      if is_valid_language_code validCodes lang_code then some lang_code
      else go rest
    else if token ≠ "<|startoftranscript|>" then none
    else go rest

/-- `evaluate_confidence` (transcription.py lines 267-291): zero confidence
is rejected outright; otherwise acceptance is the conjunction of the
threshold test and the validated, case-normalized language match. -/
def evaluate_confidence (validCodes : List String) (overall_confidence : ℚ)
    (language_token : Option String) (threshold : ℚ) (main_language : String) : Bool :=
  if overall_confidence = 0 then false
  else
    let is_high_confidence : Bool := decide (overall_confidence ≥ threshold)
    let is_main_language : Bool :=
      match language_token with
      | none => false
      | some tok =>
        if ! is_valid_language_code validCodes tok
            || ! is_valid_language_code validCodes main_language then false
        else py_lower tok == py_lower main_language
    is_high_confidence && is_main_language

/-- The audio slice taken for one diarized segment (transcription.py lines
312-314 and 410-412): start and end seconds are truncated to integers by
`int()`, scaled by the sampling rate, and used as Python slice bounds. -/
def segment_chunk (audio_array : List ℚ) (start stop : ℚ) (sampling_rate : ℤ) : List ℚ :=
  let chunk_start : ℤ := py_int start
  let chunk_end : ℤ := py_int stop
  py_slice audio_array (py_int ((chunk_start : ℚ) * (sampling_rate : ℚ)))
    (py_int ((chunk_end : ℚ) * (sampling_rate : ℚ)))

/-- The generation keyword arguments that the segment transcriber adjusts
(`generate_kwargs` dict): the language option, the decoder prompt ids
(`decoder_input_ids`, whose last-dimension size is the prompt length, with
the empty tensor as the Python default when the key is absent) and the
`max_new_tokens` cap. -/
structure GenerateKwargs where
  language : Option String
  decoder_input_ids : List ℤ
  max_new_tokens : Option ℤ
deriving DecidableEq, Repr

/-- Outcome of one call of `model_generate_with_timeout` (transcription.py
lines 88-124): a successful `GenerateOutput`, the `TimeoutException`
raised on timeout, or any other runtime error propagating from
`model.generate`. -/
inductive InferOutcome where
  | ok (outputs : GenerateOutput)
  | timeout
  | error
deriving DecidableEq, Repr

/-- Return value of `transcribe_single_segment`, the source triple
`(transcription, overall_confidence, language_token)` extended with an
`invoked_inference` flag recording whether control reached the
`model_generate_with_timeout` call (instrumentation needed to state the
capacity-failure property; the source returns only the triple). -/
structure TSSResult where
  transcription : Option String
  confidence : ℚ
  language_token : Option String
  invoked_inference : Bool
deriving DecidableEq, Repr

/-- The source triple of a `TSSResult`. -/
def TSSResult.triple (r : TSSResult) : Option String × ℚ × Option String :=
  (r.transcription, r.confidence, r.language_token)

/-- The language adjustment of `transcribe_single_segment` (lines 212-214):
a truthy `main_language` is forced as the generation language. -/
def tss_language_adjusted (generate_kwargs : GenerateKwargs)
    (main_language : Option String) : GenerateKwargs :=
  match main_language with
  | some l => if l.isEmpty then generate_kwargs else { generate_kwargs with language := some l }
  | none => generate_kwargs

/-- The `max_new_tokens` bound of `transcribe_single_segment` (line 219):
`max(256, max_length - input_length - prompt_length - buffer_tokens - 1)`,
where `max_length` is `model.config.max_length` when that attribute exists
and `max_target_positions` otherwise (line 217). -/
def tss_max_new_tokens (model_max_length : Option ℤ)
    (max_target_positions input_length prompt_length buffer_tokens : ℤ) : ℤ :=
  max 256 (model_max_length.getD max_target_positions
    - input_length - prompt_length - buffer_tokens - 1)

/-- The fully adjusted kwargs handed to the runner (lines 212-228): language
forced, then `max_new_tokens` capped by the computed bound. -/
def tss_adjusted (generate_kwargs : GenerateKwargs) (main_language : Option String)
    (model_max_length : Option ℤ)
    (max_target_positions input_length buffer_tokens : ℤ) : GenerateKwargs :=
  let adjusted := tss_language_adjusted generate_kwargs main_language
  let bound := tss_max_new_tokens model_max_length max_target_positions input_length
    (adjusted.decoder_input_ids.length : ℤ) buffer_tokens
  { adjusted with max_new_tokens := some (min (adjusted.max_new_tokens.getD bound) bound) }

/-- `transcribe_single_segment` (transcription.py lines 196-265).  The model
call is the oracle `run` over the adjusted kwargs.  `input_length` is
`inputs[input_features].shape[1]`.  The whole body is wrapped in
`try/except` in the source; the only failing steps are the runner call
(timeout or model error, both caught) and the output-shape check, all of
which normalize to the `(None, 0.0, None)` sentinel. -/
def transcribe_single_segment (validCodes : List String)
    (run : GenerateKwargs → InferOutcome)
    (input_length : ℤ) (model_max_length : Option ℤ)
    (generate_kwargs : GenerateKwargs)
    (max_target_positions buffer_tokens : ℤ)
    (main_language : Option String) : TSSResult :=
  let adjusted0 := tss_language_adjusted generate_kwargs main_language
  let max_new_tokens := tss_max_new_tokens model_max_length max_target_positions
    input_length (adjusted0.decoder_input_ids.length : ℤ) buffer_tokens
  if max_new_tokens ≤ 0 then ⟨none, 0, none, false⟩
  else
    let adjusted := tss_adjusted generate_kwargs main_language model_max_length
      max_target_positions input_length buffer_tokens
    match run adjusted with
    | InferOutcome.timeout => ⟨none, 0, none, true⟩
    | InferOutcome.error => ⟨none, 0, none, true⟩
    | InferOutcome.ok outputs =>
      match outputs.sequences, outputs.scores with
      | some seqs, some _ =>
        let transcription := outputs.decoded.trim
        let token_confidences := compute_per_token_confidence outputs
        let overall_confidence := aggregate_confidence token_confidences
        let language_token := extract_language_token validCodes seqs
        ⟨some transcription, overall_confidence, language_token, true⟩
      | _, _ => ⟨none, 0, none, true⟩

/-- One diarized segment (the dict `{speaker_id, start, end}`); the source
key `end` is a Lean keyword, rendered `stop` here. -/
structure DiarizationSegment where
  speaker_id : String
  start : ℚ
  stop : ℚ
deriving DecidableEq, Repr

/-- The per-segment transcript dict built by `transcribe_segments` (lines
335-345); `stop` renders the source key `end`. -/
structure TranscriptionResult where
  speaker_id : String
  start : ℚ
  stop : ℚ
  text : String
  confidence : ℚ
  language : Option String
  low_confidence : Bool
deriving DecidableEq, Repr

/-- A failure dict (lines 351-358 for the gate path, line 361 for the
exception path, which carries no transcription/confidence/language keys). -/
structure FailureRecord where
  segment_index : ℕ
  segment : DiarizationSegment
  transcription : Option String
  confidence : Option ℚ
  language : Option String
  reason : String
deriving DecidableEq, Repr

/-- Outcome of processing one segment inside the orchestrator loop body:
either the triple returned by `transcribe_single_segment` (which never
raises) or an exception from the surrounding body (audio preprocessing,
`processor(...)`, tensor moves — all external calls). -/
inductive SegOutcome where
  | res (transcription : Option String) (confidence : ℚ) (language_token : Option String)
  | exc (msg : String)
deriving DecidableEq, Repr

/-- Whether a `SegOutcome` is a returned triple rather than an exception. -/
def SegOutcome.isRes : SegOutcome → Bool
  | SegOutcome.res _ _ _ => true
  | SegOutcome.exc _ => false

/-- The reason string of a gate failure (line 357; the source interpolates
the numeric confidence into this message, elided here). -/
def first_pass_reason : String :=
  "Low confidence transcription or incorrect language detection."

/-- The worker of `transcribe_segments` (lines 310-362), recursing over the
segments with the 1-based enumeration index.  The oracle abstracts the
loop body from audio preprocessing through `transcribe_single_segment`;
it receives the audio chunk the body slices. -/
def transcribe_segments_go (audio_array : List ℚ) (sampling_rate : ℤ)
    (oracle : ℕ → DiarizationSegment → List ℚ → SegOutcome)
    (validCodes : List String) (confidence_threshold : ℚ) (main_language : String) :
    ℕ → List DiarizationSegment → List TranscriptionResult × List FailureRecord
  | _, [] => ([], [])
  | idx, segment :: rest =>
    let chunk := segment_chunk audio_array segment.start segment.stop sampling_rate
    let step : List TranscriptionResult × List FailureRecord :=
      match oracle idx segment chunk with
      | SegOutcome.exc msg => ([], [⟨idx, segment, none, none, none, msg⟩])
      | SegOutcome.res transcription overall_confidence language_token =>
        let low_confidence : Bool :=
          decide (overall_confidence < confidence_threshold)
          || ! evaluate_confidence validCodes overall_confidence language_token
              confidence_threshold main_language
        let transcript : TranscriptionResult :=
          ⟨segment.speaker_id, segment.start, segment.stop,
            transcription.getD "", overall_confidence, language_token, low_confidence⟩
        if low_confidence then
          ([transcript], [⟨idx, segment, transcription, some overall_confidence,
            language_token, first_pass_reason⟩])
        else ([transcript], [])
    let later := transcribe_segments_go audio_array sampling_rate oracle validCodes
      confidence_threshold main_language (idx + 1) rest
    (step.1 ++ later.1, step.2 ++ later.2)

/-- `transcribe_segments` (transcription.py lines 293-364): the first pass
over all diarized segments, enumerated from 1. -/
def transcribe_segments (audio_array : List ℚ) (sampling_rate : ℤ)
    (oracle : ℕ → DiarizationSegment → List ℚ → SegOutcome)
    (validCodes : List String) (diarization_segments : List DiarizationSegment)
    (confidence_threshold : ℚ) (main_language : String) :
    List TranscriptionResult × List FailureRecord :=
  transcribe_segments_go audio_array sampling_rate oracle validCodes
    confidence_threshold main_language 1 diarization_segments

/-- The match test of the in-place update (lines 436-438): equality of
speaker id and of both segment boundaries. -/
def matches_segment (t_seg : TranscriptionResult) (seg : DiarizationSegment) : Bool :=
  t_seg.speaker_id == seg.speaker_id && t_seg.start == seg.start && t_seg.stop == seg.stop

/-- The in-place update of the retry loop (lines 435-442): walk the result
list and overwrite text, confidence and language of the first entry
matching the segment; `break` afterwards, so later entries are untouched. -/
def update_transcription_segments (transcription_segments : List TranscriptionResult)
    (seg : DiarizationSegment) (text : String) (confidence : ℚ)
    (language : Option String) : List TranscriptionResult :=
  match transcription_segments with
  | [] => []
  | t_seg :: rest =>
    if matches_segment t_seg seg then
      { t_seg with text := text, confidence := confidence, language := language } :: rest
    else t_seg :: update_transcription_segments rest seg text confidence language

/-- The acceptance test of one retry attempt (line 433): a truthy
transcription together with a passing `evaluate_confidence` against the
retry language. -/
def retry_accepts (validCodes : List String) (confidence_threshold : ℚ)
    (lang : String) : SegOutcome → Bool
  | SegOutcome.exc _ => false
  | SegOutcome.res transcription overall_confidence language_token =>
    py_truthy_opt transcription
      && evaluate_confidence validCodes overall_confidence language_token
        confidence_threshold lang

/-- One retry round (lines 398-451 inner loop): every currently failing
record is re-attempted; the oracle abstracts the body from audio slicing
through `transcribe_single_segment` and receives the retry language (used
by the source both as generation hint and as `main_language`) and the
sliced chunk.  The lookup `diarization_segments[idx - 1]` (line 401, with
Python negative-index wrapping) sits outside the `try` that begins at line
405 and `retry_transcriptions` has no handler of its own, so a failed
lookup raises `IndexError` out of the function and aborts the run: that
path is `none` here, and it discards any updates already applied because
the caller never receives the lists.  Inside the `try`, an exception or a
rejected attempt carries the record over; an accepted attempt updates the
result list in place and drops the record. -/
def retry_round (audio_array : List ℚ) (sampling_rate : ℤ)
    (oracle : ℕ → ℕ → String → DiarizationSegment → List ℚ → SegOutcome)
    (validCodes : List String) (diarization_segments : List DiarizationSegment)
    (lang : String) (confidence_threshold : ℚ) (attempt : ℕ) :
    List TranscriptionResult → List FailureRecord →
    Option (List TranscriptionResult × List FailureRecord)
  | transcription_segments, [] => some (transcription_segments, [])
  | transcription_segments, failure :: rest =>
    let keep (ts : List TranscriptionResult) :
        Option (List TranscriptionResult × List FailureRecord) :=
      (retry_round audio_array sampling_rate oracle validCodes
        diarization_segments lang confidence_threshold attempt ts rest).map
        (fun later => (later.1, failure :: later.2))
    match py_index diarization_segments ((failure.segment_index : ℤ) - 1) with
    | none => none
    | some seg =>
      let chunk := segment_chunk audio_array seg.start seg.stop sampling_rate
      match oracle attempt failure.segment_index lang seg chunk with
      | SegOutcome.exc _ => keep transcription_segments
      | SegOutcome.res transcription overall_confidence language_token =>
        if retry_accepts validCodes confidence_threshold lang
            (SegOutcome.res transcription overall_confidence language_token) then
          retry_round audio_array sampling_rate oracle validCodes diarization_segments
            lang confidence_threshold attempt
            (update_transcription_segments transcription_segments seg
              (transcription.getD "") overall_confidence language_token) rest
        else keep transcription_segments

/-- The bounded retry loop (lines 392-451): up to the given number of rounds,
breaking as soon as no failures remain; the failure list is replaced
wholesale each round.  An `IndexError` escaping a round (see `retry_round`)
propagates: the whole loop is `none`.  The third component counts the
executed rounds (instrumentation; the source returns only the two lists). -/
def retry_loop (audio_array : List ℚ) (sampling_rate : ℤ)
    (oracle : ℕ → ℕ → String → DiarizationSegment → List ℚ → SegOutcome)
    (validCodes : List String) (diarization_segments : List DiarizationSegment)
    (lang : String) (confidence_threshold : ℚ) :
    ℕ → ℕ → List TranscriptionResult → List FailureRecord →
    Option (List TranscriptionResult × List FailureRecord × ℕ)
  | 0, _, transcription_segments, failed_segments =>
    some (transcription_segments, failed_segments, 0)
  | n + 1, attempt, transcription_segments, failed_segments =>
    if failed_segments.isEmpty then some (transcription_segments, failed_segments, 0)
    else
      match retry_round audio_array sampling_rate oracle validCodes
          diarization_segments lang confidence_threshold attempt
          transcription_segments failed_segments with
      | none => none
      | some round =>
        match retry_loop audio_array sampling_rate oracle validCodes
            diarization_segments lang confidence_threshold n (attempt + 1)
            round.1 round.2 with
        | none => none
        | some later => some (later.1, later.2.1, later.2.2 + 1)

/-- `retry_transcriptions` (transcription.py lines 366-453): a truthy and
recognized secondary language is lowercased and cut to its first two
characters before entering the loop; otherwise both lists are returned
unchanged with zero rounds.  `none` is the uncaught `IndexError` of a
failure record whose index addresses no diarized segment. -/
def retry_transcriptions (audio_array : List ℚ) (sampling_rate : ℤ)
    (oracle : ℕ → ℕ → String → DiarizationSegment → List ℚ → SegOutcome)
    (validCodes : List String) (diarization_segments : List DiarizationSegment)
    (failed_segments : List FailureRecord)
    (transcription_segments : List TranscriptionResult)
    (secondary_language : Option String) (confidence_threshold : ℚ)
    (max_retries : ℕ) :
    Option (List TranscriptionResult × List FailureRecord × ℕ) :=
  match secondary_language with
  | some s =>
    if py_truthy_str s && is_valid_language_code validCodes s then
      retry_loop audio_array sampling_rate oracle validCodes diarization_segments
        (py_str_take (py_lower s) 2) confidence_threshold max_retries 1
        transcription_segments failed_segments
    else some (transcription_segments, failed_segments, 0)
  | none => some (transcription_segments, failed_segments, 0)

/-- The pipeline composition in main.py (lines 463-483): the first pass,
then — only when failures exist and a secondary language string is truthy —
the retry pass over the first-pass lists.  `none` is an exception escaping
the retry pass and aborting the run. -/
def full_pipeline (audio_array : List ℚ) (sampling_rate : ℤ)
    (first_oracle : ℕ → DiarizationSegment → List ℚ → SegOutcome)
    (retry_oracle : ℕ → ℕ → String → DiarizationSegment → List ℚ → SegOutcome)
    (validCodes : List String) (diarization_segments : List DiarizationSegment)
    (secondary_language : Option String) (confidence_threshold : ℚ)
    (main_language : String) (max_retries : ℕ) :
    Option (List TranscriptionResult × List FailureRecord × ℕ) :=
  let first := transcribe_segments audio_array sampling_rate first_oracle validCodes
    diarization_segments confidence_threshold main_language
  if ! first.2.isEmpty && (match secondary_language with
      | some s => py_truthy_str s
      | none => false) then
    retry_transcriptions audio_array sampling_rate retry_oracle validCodes
      diarization_segments first.2 first.1 secondary_language confidence_threshold
      max_retries
  else some (first.1, first.2, 0)

/-- The segment lookup of a failure record succeeds (line 401): the 1-based
`segment_index` addresses an existing diarized segment under Python
indexing.  Every record the first pass produces satisfies this. -/
def failure_lookup_ok (diarization_segments : List DiarizationSegment)
    (failure : FailureRecord) : Bool :=
  (py_index diarization_segments ((failure.segment_index : ℤ) - 1)).isSome

/-- The skip condition of the retry pass as the spec states it: the
secondary language is absent, or it is not recognized by the validator. -/
def secondary_absent_or_invalid (validCodes : List String) : Option String → Bool
  | none => true
  | some s => ! is_valid_language_code validCodes s

/-- The identity fields of a result (speaker and boundaries). -/
def resultKey (r : TranscriptionResult) : String × ℚ × ℚ :=
  (r.speaker_id, r.start, r.stop)

/-- The identity fields of a diarized segment. -/
def segmentKey (s : DiarizationSegment) : String × ℚ × ℚ :=
  (s.speaker_id, s.start, s.stop)

/-- C2: the acceptance policy returns true exactly when the confidence is
nonzero, at least the threshold, a detected-language token is present,
both the detected and the target tokens are recognized by the validator,
and the case-normalized detected language equals the case-normalized
target; in particular a confidence of exactly 0.0 is always rejected. -/
theorem C2_acceptance_policy (validCodes : List String) (conf threshold : ℚ)
    (language_token : Option String) (main_language : String) :
    (evaluate_confidence validCodes conf language_token threshold main_language = true ↔
      conf ≠ 0 ∧ threshold ≤ conf ∧ ∃ tok, language_token = some tok ∧
        is_valid_language_code validCodes tok = true ∧
        is_valid_language_code validCodes main_language = true ∧
        py_lower tok = py_lower main_language)
    ∧ evaluate_confidence validCodes 0 language_token threshold main_language = false := by
  constructor
  · unfold evaluate_confidence
    by_cases h0 : conf = 0
    · simp [h0]
    · simp only [if_neg h0, ne_eq, h0, not_false_eq_true, true_and]
      cases language_token with
      | none => simp
      | some tok =>
        by_cases hv : is_valid_language_code validCodes tok
        · by_cases hm : is_valid_language_code validCodes main_language
          · simp [hv, hm, ge_iff_le, and_comm]
          · simp [hv, hm]
        · simp [hv]
  · unfold evaluate_confidence
    simp

/-- C9: `aggregate_confidence` is the arithmetic mean, lying in the unit
interval for any nonempty list of unit-interval confidences, and returns
0.0 on the empty list. -/
theorem C9_aggregate_mean (l : List ℚ) (h1 : l ≠ [])
    (h2 : ∀ x ∈ l, 0 ≤ x ∧ x ≤ 1) :
    aggregate_confidence [] = 0
    ∧ aggregate_confidence l = l.sum / l.length
    ∧ 0 ≤ aggregate_confidence l ∧ aggregate_confidence l ≤ 1 := by
  have hlen : 0 < (l.length : ℚ) := by
    exact_mod_cast List.length_pos.mpr h1
  have hsum0 : 0 ≤ l.sum := List.sum_nonneg fun x hx => (h2 x hx).1
  have hsum1 : l.sum ≤ (l.length : ℚ) := by
    have := List.sum_le_card_nsmul l 1 fun x hx => (h2 x hx).2
    simpa using this
  refine ⟨rfl, ?_, ?_, ?_⟩
  · unfold aggregate_confidence
    rw [if_neg h1]
  · unfold aggregate_confidence
    rw [if_neg h1]
    exact div_nonneg hsum0 (le_of_lt hlen)
  · unfold aggregate_confidence
    rw [if_neg h1]
    exact (div_le_one hlen).mpr hsum1

/-- Witness for C9 at the concrete list `[0, 1]`. -/
theorem C9_witness :
    0 ≤ aggregate_confidence [0, 1] ∧ aggregate_confidence [0, 1] ≤ 1 :=
  (C9_aggregate_mean [0, 1] (by decide) (by decide)).2.2

/-- C6: with an absent or unrecognized secondary language,
`retry_transcriptions` performs zero rounds and returns both lists
unchanged. -/
theorem C6_skip_unrecognized (audio_array : List ℚ) (sampling_rate : ℤ)
    (oracle : ℕ → ℕ → String → DiarizationSegment → List ℚ → SegOutcome)
    (validCodes : List String) (diarization_segments : List DiarizationSegment)
    (failed_segments : List FailureRecord)
    (transcription_segments : List TranscriptionResult)
    (secondary_language : Option String) (confidence_threshold : ℚ) (max_retries : ℕ)
    (h : secondary_absent_or_invalid validCodes secondary_language = true) :
    retry_transcriptions audio_array sampling_rate oracle validCodes
      diarization_segments failed_segments transcription_segments
      secondary_language confidence_threshold max_retries
      = some (transcription_segments, failed_segments, 0) := by
  cases secondary_language with
  | none => rfl
  | some s =>
    have hv : is_valid_language_code validCodes s = false := by
      simpa [secondary_absent_or_invalid] using h
    simp [retry_transcriptions, hv]

/-- Witness for C6 at the unrecognized secondary language "zz". -/
theorem C6_witness :
    retry_transcriptions [] 16000 (fun _ _ _ _ _ => SegOutcome.exc "e") ["en"] []
      [] [] (some "zz") (6/10) 3 = some ([], [], 0) :=
  C6_skip_unrecognized [] 16000 (fun _ _ _ _ _ => SegOutcome.exc "e") ["en"] []
    [] [] (some "zz") (6/10) 3 (by decide)

/-- The computed token bound is at least 256, hence positive. -/
theorem tss_max_new_tokens_pos (model_max_length : Option ℤ)
    (max_target_positions input_length prompt_length buffer_tokens : ℤ) :
    0 < tss_max_new_tokens model_max_length max_target_positions input_length
      prompt_length buffer_tokens := by
  unfold tss_max_new_tokens
  have h := le_max_left (256 : ℤ) (model_max_length.getD max_target_positions
    - input_length - prompt_length - buffer_tokens - 1)
  omega

/-- The language adjustment leaves the decoder prompt untouched. -/
theorem tss_language_adjusted_decoder (generate_kwargs : GenerateKwargs)
    (main_language : Option String) :
    (tss_language_adjusted generate_kwargs main_language).decoder_input_ids
      = generate_kwargs.decoder_input_ids := by
  unfold tss_language_adjusted
  cases main_language with
  | none => rfl
  | some l =>
    by_cases h : l.isEmpty <;> simp [h]

/-- C3: the bound on new tokens computed by `transcribe_single_segment`
equals `max(256, model_max_length - input_length - prompt_length -
buffer_tokens - 1)`, and whenever that bound is nonpositive the segment
fails immediately as `(None, 0.0, None)` without invoking inference
(rendered as the classical disjunction with the positivity of the bound;
the 256 floor in fact makes the bound always positive). -/
theorem C3_token_budget (validCodes : List String) (run : GenerateKwargs → InferOutcome)
    (input_length : ℤ) (model_max_length : Option ℤ) (generate_kwargs : GenerateKwargs)
    (max_target_positions buffer_tokens : ℤ) (main_language : Option String) :
    tss_max_new_tokens model_max_length max_target_positions input_length
        ((tss_language_adjusted generate_kwargs main_language).decoder_input_ids.length : ℤ)
        buffer_tokens
      = max 256 (model_max_length.getD max_target_positions - input_length
          - (generate_kwargs.decoder_input_ids.length : ℤ) - buffer_tokens - 1)
    ∧ (0 < tss_max_new_tokens model_max_length max_target_positions input_length
          ((tss_language_adjusted generate_kwargs main_language).decoder_input_ids.length : ℤ)
          buffer_tokens
        ∨ transcribe_single_segment validCodes run input_length model_max_length
            generate_kwargs max_target_positions buffer_tokens main_language
            = ⟨none, 0, none, false⟩) := by
  constructor
  · rw [tss_language_adjusted_decoder]
    rfl
  · exact Or.inl (tss_max_new_tokens_pos _ _ _ _ _)

/-- C4: `transcribe_single_segment` never raises: a timeout from the bounded
runner, any other model error, and an output missing the `sequences` or
`scores` attributes all convert to the `(None, 0.0, None)` sentinel. -/
theorem C4_never_raises (validCodes : List String) (input_length : ℤ)
    (model_max_length : Option ℤ) (generate_kwargs : GenerateKwargs)
    (max_target_positions buffer_tokens : ℤ) (main_language : Option String)
    (outputs : GenerateOutput) :
    (transcribe_single_segment validCodes (fun _ => InferOutcome.timeout) input_length
        model_max_length generate_kwargs max_target_positions buffer_tokens
        main_language).triple = (none, 0, none)
    ∧ (transcribe_single_segment validCodes (fun _ => InferOutcome.error) input_length
        model_max_length generate_kwargs max_target_positions buffer_tokens
        main_language).triple = (none, 0, none)
    ∧ ((outputs.sequences.isSome && outputs.scores.isSome) = true
        ∨ (transcribe_single_segment validCodes (fun _ => InferOutcome.ok outputs)
            input_length model_max_length generate_kwargs max_target_positions
            buffer_tokens main_language).triple = (none, 0, none)) := by
  have hpos := tss_max_new_tokens_pos model_max_length max_target_positions input_length
    ((tss_language_adjusted generate_kwargs main_language).decoder_input_ids.length : ℤ)
    buffer_tokens
  have hguard : ¬ (tss_max_new_tokens model_max_length max_target_positions input_length
      ((tss_language_adjusted generate_kwargs main_language).decoder_input_ids.length : ℤ)
      buffer_tokens ≤ 0) := by omega
  refine ⟨?_, ?_, ?_⟩
  · unfold transcribe_single_segment
    rw [if_neg hguard]
    rfl
  · unfold transcribe_single_segment
    rw [if_neg hguard]
    rfl
  · obtain ⟨oseq, osc, odec⟩ := outputs
    cases oseq with
    | none =>
      refine Or.inr ?_
      unfold transcribe_single_segment
      rw [if_neg hguard]
      rfl
    | some seqs =>
      cases osc with
      | none =>
        refine Or.inr ?_
        unfold transcribe_single_segment
        rw [if_neg hguard]
        rfl
      | some scores =>
        exact Or.inl (by simp)

/-- A list lookup below the length bound succeeds. -/
theorem get?_isSome_of_lt {α : Type _} {l : List α} {k : ℕ} (h : k < l.length) :
    (l.get? k).isSome = true := by
  cases hg : l.get? k with
  | none =>
    have := List.get?_eq_none.mp hg
    omega
  | some a => rfl

/-- The in-place update does not touch identity fields of any entry. -/
theorem update_transcription_segments_keys (transcription_segments : List TranscriptionResult)
    (seg : DiarizationSegment) (text : String) (confidence : ℚ)
    (language : Option String) :
    (update_transcription_segments transcription_segments seg text confidence
      language).map resultKey = transcription_segments.map resultKey := by
  induction transcription_segments with
  | nil => rfl
  | cons hd tl ih =>
    unfold update_transcription_segments
    by_cases hm : matches_segment hd seg
    · simp [hm, resultKey]
    · simp [hm, ih]

/-- A round in which no attempt is accepted changes nothing, whenever it
completes at all (an uncaught IndexError yields no lists to compare). -/
theorem retry_round_allreject (audio_array : List ℚ) (sampling_rate : ℤ)
    (oracle : ℕ → ℕ → String → DiarizationSegment → List ℚ → SegOutcome)
    (validCodes : List String) (diarization_segments : List DiarizationSegment)
    (lang : String) (confidence_threshold : ℚ) (attempt : ℕ)
    (H : ∀ a i seg ch, retry_accepts validCodes confidence_threshold lang
      (oracle a i lang seg ch) = false) :
    ∀ (failed_segments : List FailureRecord)
      (transcription_segments : List TranscriptionResult)
      (out : List TranscriptionResult × List FailureRecord),
      retry_round audio_array sampling_rate oracle validCodes diarization_segments
        lang confidence_threshold attempt transcription_segments failed_segments
        = some out →
      out = (transcription_segments, failed_segments) := by
  intro fs
  induction fs with
  | nil =>
    intro ts out h
    unfold retry_round at h
    exact (Option.some_inj.mp h).symm
  | cons failure rest ih =>
    intro ts out h
    unfold retry_round at h
    cases hlook : py_index diarization_segments ((failure.segment_index : ℤ) - 1) with
    | none => simp [hlook] at h
    | some seg =>
      simp only [hlook] at h
      have haccept := H attempt failure.segment_index seg
        (segment_chunk audio_array seg.start seg.stop sampling_rate)
      cases horacle : oracle attempt failure.segment_index lang seg
          (segment_chunk audio_array seg.start seg.stop sampling_rate) with
      | exc msg =>
        simp only [horacle] at h
        cases hrec : retry_round audio_array sampling_rate oracle validCodes
            diarization_segments lang confidence_threshold attempt ts rest with
        | none => simp [hrec] at h
        | some later =>
          rw [hrec] at h
          simp only [Option.map_some'] at h
          have hl := ih ts later hrec
          rw [hl] at h
          exact (Option.some_inj.mp h).symm
      | res t c l =>
        rw [horacle] at haccept
        simp only [horacle, haccept, Bool.false_eq_true, if_false] at h
        cases hrec : retry_round audio_array sampling_rate oracle validCodes
            diarization_segments lang confidence_threshold attempt ts rest with
        | none => simp [hrec] at h
        | some later =>
          rw [hrec] at h
          simp only [Option.map_some'] at h
          have hl := ih ts later hrec
          rw [hl] at h
          exact (Option.some_inj.mp h).symm

/-- A loop in which no attempt is ever accepted leaves both lists unchanged
and runs the full number of rounds on a nonempty failure list, whenever it
completes at all. -/
theorem retry_loop_allreject (audio_array : List ℚ) (sampling_rate : ℤ)
    (oracle : ℕ → ℕ → String → DiarizationSegment → List ℚ → SegOutcome)
    (validCodes : List String) (diarization_segments : List DiarizationSegment)
    (lang : String) (confidence_threshold : ℚ)
    (H : ∀ a i seg ch, retry_accepts validCodes confidence_threshold lang
      (oracle a i lang seg ch) = false) :
    ∀ (n attempt : ℕ) (transcription_segments : List TranscriptionResult)
      (failed_segments : List FailureRecord)
      (out : List TranscriptionResult × List FailureRecord × ℕ),
      retry_loop audio_array sampling_rate oracle validCodes diarization_segments
        lang confidence_threshold n attempt transcription_segments failed_segments
        = some out →
      out = (transcription_segments, failed_segments,
        if failed_segments.isEmpty then 0 else n) := by
  intro n
  induction n with
  | zero =>
    intro attempt ts fs out h
    unfold retry_loop at h
    rw [← Option.some_inj.mp h]
    by_cases hf : fs.isEmpty <;> simp [hf]
  | succ n ih =>
    intro attempt ts fs out h
    unfold retry_loop at h
    by_cases hf : fs.isEmpty
    · rw [if_pos hf] at h
      rw [← Option.some_inj.mp h, if_pos hf]
    · rw [if_neg hf] at h
      cases hround : retry_round audio_array sampling_rate oracle validCodes
          diarization_segments lang confidence_threshold attempt ts fs with
      | none => simp [hround] at h
      | some round =>
        simp only [hround] at h
        have hr := retry_round_allreject audio_array sampling_rate oracle validCodes
          diarization_segments lang confidence_threshold attempt H fs ts round hround
        cases hloop : retry_loop audio_array sampling_rate oracle validCodes
            diarization_segments lang confidence_threshold n (attempt + 1)
            round.1 round.2 with
        | none => simp [hloop] at h
        | some later =>
          simp only [hloop] at h
          have hl := ih (attempt + 1) round.1 round.2 later hloop
          rw [hr] at hl
          rw [← Option.some_inj.mp h, hl]
          simp [hf]

/-- Under valid lookups, a retry round completes, preserves the identity
fields of every result, and keeps a sublist of the failure records. -/
theorem retry_round_spec (audio_array : List ℚ) (sampling_rate : ℤ)
    (oracle : ℕ → ℕ → String → DiarizationSegment → List ℚ → SegOutcome)
    (validCodes : List String) (diarization_segments : List DiarizationSegment)
    (lang : String) (confidence_threshold : ℚ) (attempt : ℕ) :
    ∀ (failed_segments : List FailureRecord)
      (transcription_segments : List TranscriptionResult),
      (∀ f ∈ failed_segments, failure_lookup_ok diarization_segments f = true) →
      ∃ out, retry_round audio_array sampling_rate oracle validCodes
          diarization_segments lang confidence_threshold attempt
          transcription_segments failed_segments = some out
        ∧ out.1.map resultKey = transcription_segments.map resultKey
        ∧ List.Sublist out.2 failed_segments := by
  intro fs
  induction fs with
  | nil =>
    intro ts _
    exact ⟨(ts, []), rfl, rfl, List.nil_sublist _⟩
  | cons failure rest ih =>
    intro ts Hv
    have hlk := Hv failure (List.mem_cons_self failure rest)
    have Hrest : ∀ f ∈ rest, failure_lookup_ok diarization_segments f = true :=
      fun f hf => Hv f (List.mem_cons_of_mem failure hf)
    unfold failure_lookup_ok at hlk
    cases hlook : py_index diarization_segments ((failure.segment_index : ℤ) - 1) with
    | none => rw [hlook] at hlk; simp at hlk
    | some seg =>
      unfold retry_round
      simp only [hlook]
      cases horacle : oracle attempt failure.segment_index lang seg
          (segment_chunk audio_array seg.start seg.stop sampling_rate) with
      | exc msg =>
        obtain ⟨later, hlater, hkeys, hsub⟩ := ih ts Hrest
        exact ⟨(later.1, failure :: later.2), by simp [hlater], hkeys,
          List.Sublist.cons₂ failure hsub⟩
      | res t c l =>
        by_cases hacc : retry_accepts validCodes confidence_threshold lang
            (SegOutcome.res t c l) = true
        · obtain ⟨later, hlater, hkeys, hsub⟩ := ih
            (update_transcription_segments ts seg (t.getD "") c l) Hrest
          refine ⟨later, ?_, ?_, List.Sublist.cons failure hsub⟩
          · simp [hacc, hlater]
          · rw [hkeys, update_transcription_segments_keys]
        · obtain ⟨later, hlater, hkeys, hsub⟩ := ih ts Hrest
          refine ⟨(later.1, failure :: later.2), ?_, hkeys,
            List.Sublist.cons₂ failure hsub⟩
          simp [hacc, hlater]

/-- Under valid lookups, the retry loop completes, preserves result identity
fields, keeps a sublist of the failures, never exceeds its round budget,
and ends early only with an empty failure list. -/
theorem retry_loop_spec (audio_array : List ℚ) (sampling_rate : ℤ)
    (oracle : ℕ → ℕ → String → DiarizationSegment → List ℚ → SegOutcome)
    (validCodes : List String) (diarization_segments : List DiarizationSegment)
    (lang : String) (confidence_threshold : ℚ) :
    ∀ (n attempt : ℕ) (transcription_segments : List TranscriptionResult)
      (failed_segments : List FailureRecord),
      (∀ f ∈ failed_segments, failure_lookup_ok diarization_segments f = true) →
      ∃ out, retry_loop audio_array sampling_rate oracle validCodes
          diarization_segments lang confidence_threshold n attempt
          transcription_segments failed_segments = some out
        ∧ out.1.map resultKey = transcription_segments.map resultKey
        ∧ List.Sublist out.2.1 failed_segments
        ∧ out.2.2 ≤ n
        ∧ (out.2.2 = n ∨ out.2.1 = []) := by
  intro n
  induction n with
  | zero =>
    intro attempt ts fs Hv
    exact ⟨(ts, fs, 0), rfl, rfl, List.Sublist.refl fs, Nat.le_refl 0, Or.inl rfl⟩
  | succ n ih =>
    intro attempt ts fs Hv
    by_cases hf : fs.isEmpty
    · refine ⟨(ts, fs, 0), ?_, rfl, List.Sublist.refl fs, Nat.zero_le _, Or.inr ?_⟩
      · unfold retry_loop
        rw [if_pos hf]
      · simpa [List.isEmpty_iff] using hf
    · obtain ⟨round, hround, hrkeys, hrsub⟩ := retry_round_spec audio_array
        sampling_rate oracle validCodes diarization_segments lang
        confidence_threshold attempt fs ts Hv
      have Hv2 : ∀ f ∈ round.2, failure_lookup_ok diarization_segments f = true :=
        fun f hf2 => Hv f (hrsub.subset hf2)
      obtain ⟨later, hlater, hlkeys, hlsub, hlle, hlor⟩ :=
        ih (attempt + 1) round.1 round.2 Hv2
      refine ⟨(later.1, later.2.1, later.2.2 + 1), ?_, ?_, hlsub.trans hrsub,
        ?_, ?_⟩
      · unfold retry_loop
        rw [if_neg hf]
        simp only [hround, hlater]
      · rw [hlkeys, hrkeys]
      · show later.2.2 + 1 ≤ n + 1
        omega
      · cases hlor with
        | inl h => exact Or.inl (show later.2.2 + 1 = n + 1 by omega)
        | inr h => exact Or.inr h

/-- C5 (amended): for every initial failure list whose records reference an
existing diarized segment — as every list the first pass produces does —
the retry loop completes, executes at most `max_retries` rounds and stops
early only when no failures remain; and when no retry attempt is ever
accepted, both lists come back unchanged with a nonempty failure list
retried for exactly `max_retries` rounds. -/
theorem C5_retry_bounded (audio_array : List ℚ) (sampling_rate : ℤ)
    (oracle : ℕ → ℕ → String → DiarizationSegment → List ℚ → SegOutcome)
    (validCodes : List String) (diarization_segments : List DiarizationSegment)
    (lang : String) (confidence_threshold : ℚ) (max_retries attempt : ℕ)
    (transcription_segments : List TranscriptionResult)
    (failed_segments : List FailureRecord)
    (Hvalid : ∀ f ∈ failed_segments,
      failure_lookup_ok diarization_segments f = true) :
    ∃ final, retry_loop audio_array sampling_rate oracle validCodes
        diarization_segments lang confidence_threshold max_retries attempt
        transcription_segments failed_segments = some final
      ∧ final.2.2 ≤ max_retries
      ∧ (final.2.2 = max_retries ∨ final.2.1 = [])
      ∧ ((∀ a i seg ch, retry_accepts validCodes confidence_threshold lang
            (oracle a i lang seg ch) = false) →
          final = (transcription_segments, failed_segments,
            if failed_segments.isEmpty then 0 else max_retries)) := by
  obtain ⟨out, hout, _, _, hle, hor⟩ := retry_loop_spec audio_array sampling_rate
    oracle validCodes diarization_segments lang confidence_threshold max_retries
    attempt transcription_segments failed_segments Hvalid
  exact ⟨out, hout, hle, hor, fun H => retry_loop_allreject audio_array
    sampling_rate oracle validCodes diarization_segments lang confidence_threshold
    H max_retries attempt transcription_segments failed_segments out hout⟩

/-- C5 counterexample: a failure record whose 1-based index addresses no
diarized segment (index 1 over an empty segment list).  The lookup at line
401 sits outside the `try`, so the source raises IndexError out of
`retry_transcriptions` during round 1: the loop never returns a final
failure list at all, instead of executing three rounds and returning a list
of the initial size. -/
theorem C5_counterexample :
    retry_loop [] 16000 (fun _ _ _ _ _ => SegOutcome.exc "e") ["en"] [] "en" 1 3 1
      [] [⟨1, ⟨"A", 0, 1⟩, none, none, none, "r"⟩] = none
    ∧ retry_transcriptions [] 16000 (fun _ _ _ _ _ => SegOutcome.exc "e") ["en"] []
      [⟨1, ⟨"A", 0, 1⟩, none, none, none, "r"⟩] [] (some "en") 1 3 = none := by
  exact ⟨rfl, by decide⟩

/-- Witness for C5 at a one-element failure list addressing an existing
segment whose every retry attempt raises, with a budget of three rounds. -/
theorem C5_witness :
    retry_loop [] 16000 (fun _ _ _ _ _ => SegOutcome.exc "e") ["en"]
      [⟨"A", 0, 1⟩] "en" 1 3 1 [] [⟨1, ⟨"A", 0, 1⟩, none, none, none, "r"⟩]
      = some ([], [⟨1, ⟨"A", 0, 1⟩, none, none, none, "r"⟩], 3) := by
  obtain ⟨final, hfinal, hle, hor, hall⟩ := C5_retry_bounded [] 16000
    (fun _ _ _ _ _ => SegOutcome.exc "e") ["en"] [⟨"A", 0, 1⟩] "en" 1 3 1 []
    [⟨1, ⟨"A", 0, 1⟩, none, none, none, "r"⟩] (by decide)
  rw [hfinal, hall (fun _ _ _ _ => rfl)]
  simp

/-- C10: `retry_transcriptions` validates the full secondary-language string
but retries with its lowercased two-character prefix as both hint and
acceptance target; when that prefix is not itself a recognized code, the
acceptance evaluation is false for every confidence and detected token, so
no retry attempt can ever succeed: whenever the retry pass returns at all,
both lists come back unchanged and a nonempty failure list has consumed all
`max_retries` rounds. -/
theorem C10_secondary_two_letter (audio_array : List ℚ) (sampling_rate : ℤ)
    (oracle : ℕ → ℕ → String → DiarizationSegment → List ℚ → SegOutcome)
    (validCodes : List String) (diarization_segments : List DiarizationSegment)
    (failed_segments : List FailureRecord)
    (transcription_segments : List TranscriptionResult) (s : String)
    (confidence_threshold : ℚ) (max_retries : ℕ)
    (h1 : (py_truthy_str s && is_valid_language_code validCodes s) = true)
    (h2 : is_valid_language_code validCodes (py_str_take (py_lower s) 2) = false) :
    (∀ (conf : ℚ) (tok : Option String),
      evaluate_confidence validCodes conf tok confidence_threshold
        (py_str_take (py_lower s) 2) = false)
    ∧ ∀ (ts2 : List TranscriptionResult) (fs2 : List FailureRecord) (rounds : ℕ),
        retry_transcriptions audio_array sampling_rate oracle validCodes
          diarization_segments failed_segments transcription_segments (some s)
          confidence_threshold max_retries = some (ts2, fs2, rounds) →
        ts2 = transcription_segments ∧ fs2 = failed_segments
          ∧ rounds = (if failed_segments.isEmpty then 0 else max_retries) := by
  have heval : ∀ (conf : ℚ) (tok : Option String),
      evaluate_confidence validCodes conf tok confidence_threshold
        (py_str_take (py_lower s) 2) = false := by
    intro conf tok
    unfold evaluate_confidence
    by_cases h0 : conf = 0
    · simp [h0]
    · cases tok with
      | none => simp [h0]
      | some t => simp [h0, h2]
  refine ⟨heval, ?_⟩
  intro ts2 fs2 rounds hcomplete
  have hall : ∀ a i seg ch, retry_accepts validCodes confidence_threshold
      (py_str_take (py_lower s) 2) (oracle a i (py_str_take (py_lower s) 2) seg ch)
      = false := by
    intro a i seg ch
    cases oracle a i (py_str_take (py_lower s) 2) seg ch with
    | exc msg => rfl
    | res t c l => simp [retry_accepts, heval c l]
  unfold retry_transcriptions at hcomplete
  dsimp only at hcomplete
  rw [if_pos h1] at hcomplete
  have h := retry_loop_allreject audio_array sampling_rate oracle validCodes
    diarization_segments (py_str_take (py_lower s) 2) confidence_threshold hall
    max_retries 1 transcription_segments failed_segments (ts2, fs2, rounds)
    hcomplete
  simp only [Prod.mk.injEq] at h
  exact ⟨h.1, h.2.1, h.2.2⟩

/-- Witness for C10 with the ISO 639-3 code "spa" as recognized secondary
language whose two-letter prefix "sp" is not a recognized code: the retry
pass completes unchanged after all three rounds. -/
theorem C10_witness :
    retry_transcriptions [] 16000 (fun _ _ _ _ _ => SegOutcome.exc "e") ["spa"]
      [⟨"A", 0, 1⟩] [⟨1, ⟨"A", 0, 1⟩, none, none, none, "r"⟩] [] (some "spa") 1 3
      = some ([], [⟨1, ⟨"A", 0, 1⟩, none, none, none, "r"⟩], 3)
    ∧ (3 : ℕ) = (if ([⟨1, ⟨"A", 0, 1⟩, none, none, none, "r"⟩]
        : List FailureRecord).isEmpty then 0 else 3) := by
  have h := C10_secondary_two_letter [] 16000 (fun _ _ _ _ _ => SegOutcome.exc "e")
    ["spa"] [⟨"A", 0, 1⟩] [⟨1, ⟨"A", 0, 1⟩, none, none, none, "r"⟩] [] "spa" 1 3
    (by decide) (by decide)
  refine ⟨by decide, ?_⟩
  exact (h.2 [] [⟨1, ⟨"A", 0, 1⟩, none, none, none, "r"⟩] 3 (by decide)).2.2

/-- C7: when a retry attempt is accepted, the update walks the result list
and overwrites text, confidence and language of the first entry whose
speaker id and boundaries match the failing segment, leaving its other
fields and every other entry untouched.  The index `i` is the first
matching position (nothing before it matches). -/
theorem C7_update_first_match (transcription_segments : List TranscriptionResult)
    (seg : DiarizationSegment) (text : String) (confidence : ℚ)
    (language : Option String) (i : ℕ) (r : TranscriptionResult)
    (hget : transcription_segments.get? i = some r)
    (hmatch : matches_segment r seg = true)
    (hbefore : ∀ j rj, j < i → transcription_segments.get? j = some rj →
      matches_segment rj seg = false) :
    (update_transcription_segments transcription_segments seg text confidence
        language).length = transcription_segments.length
    ∧ (update_transcription_segments transcription_segments seg text confidence
        language).get? i
        = some { r with text := text, confidence := confidence, language := language }
    ∧ ∀ j, j ≠ i →
        (update_transcription_segments transcription_segments seg text confidence
          language).get? j = transcription_segments.get? j := by
  induction transcription_segments generalizing i with
  | nil => simp at hget
  | cons hd tl ih =>
    cases i with
    | zero =>
      have hr : hd = r := by simpa using hget
      subst hr
      unfold update_transcription_segments
      rw [if_pos hmatch]
      refine ⟨by simp, by simp, ?_⟩
      intro j hj
      cases j with
      | zero => exact absurd rfl hj
      | succ j => simp
    | succ i =>
      have hhd : matches_segment hd seg = false :=
        hbefore 0 hd (Nat.succ_pos i) rfl
      have htl : tl.get? i = some r := by simpa using hget
      have hbefore2 : ∀ j rj, j < i → tl.get? j = some rj →
          matches_segment rj seg = false := by
        intro j rj hj hg
        exact hbefore (j + 1) rj (Nat.succ_lt_succ hj) (by simpa using hg)
      obtain ⟨hlen, hat, hother⟩ := ih i htl hbefore2
      unfold update_transcription_segments
      rw [if_neg (by simp [hhd])]
      refine ⟨by simpa using hlen, by simpa using hat, ?_⟩
      intro j hj
      cases j with
      | zero => simp
      | succ j =>
        have : j ≠ i := fun h => hj (by simp [h])
        simpa using hother j this

/-- Witness for C7 on a two-element result list whose first entry matches. -/
theorem C7_witness :
    (update_transcription_segments
      [⟨"A", 0, 1, "x", 1, none, true⟩, ⟨"B", 2, 3, "y", 1, none, false⟩]
      ⟨"A", 0, 1⟩ "new" 1 (some "es")).get? 0
      = some ⟨"A", 0, 1, "new", 1, some "es", true⟩
    ∧ (update_transcription_segments
      [⟨"A", 0, 1, "x", 1, none, true⟩, ⟨"B", 2, 3, "y", 1, none, false⟩]
      ⟨"A", 0, 1⟩ "new" 1 (some "es")).get? 1
      = some ⟨"B", 2, 3, "y", 1, none, false⟩ := by
  have h := C7_update_first_match
    [⟨"A", 0, 1, "x", 1, none, true⟩, ⟨"B", 2, 3, "y", 1, none, false⟩]
    ⟨"A", 0, 1⟩ "new" 1 (some "es") 0 ⟨"A", 0, 1, "x", 1, none, true⟩
    rfl (by decide) (fun j rj hj _ => absurd hj (Nat.not_lt_zero j))
  refine ⟨h.2.1, ?_⟩
  rw [h.2.2 1 (by decide)]
  rfl

/-- Casting an integer into the rationals and truncating is the identity. -/
theorem py_int_intCast (k : ℤ) : py_int (k : ℚ) = k := by
  unfold py_int
  rw [Rat.num_intCast, Rat.den_intCast]
  simp

/-- The chunk taken for a segment is the Python slice between the truncated
second marks scaled by the sampling rate. -/
theorem segment_chunk_trunc (audio_array : List ℚ) (start stop : ℚ)
    (sampling_rate : ℤ) :
    segment_chunk audio_array start stop sampling_rate
      = py_slice audio_array (py_int start * sampling_rate)
          (py_int stop * sampling_rate) := by
  unfold segment_chunk
  dsimp only
  have h1 : ((py_int start : ℤ) : ℚ) * ((sampling_rate : ℤ) : ℚ)
      = ((py_int start * sampling_rate : ℤ) : ℚ) := by push_cast; ring
  have h2 : ((py_int stop : ℤ) : ℚ) * ((sampling_rate : ℤ) : ℚ)
      = ((py_int stop * sampling_rate : ℤ) : ℚ) := by push_cast; ring
  rw [h1, h2, py_int_intCast, py_int_intCast]

/-- C8 (amended): in both passes the audio slice covers the half-open
interval between the int-truncated start and end seconds at the sampling
rate — sample indices from `int(start) * SAMPLING_RATE` inclusive to
`int(end) * SAMPLING_RATE` exclusive. -/
theorem C8_slice_amended (audio_array : List ℚ) (start stop : ℚ)
    (sampling_rate : ℤ) :
    segment_chunk audio_array start stop sampling_rate
      = py_slice audio_array (py_int start * sampling_rate)
          (py_int stop * sampling_rate) :=
  segment_chunk_trunc audio_array start stop sampling_rate

/-- A ten-sample audio array used as the slicing counterexample input. -/
def audio10 : List ℚ := [0, 1, 2, 3, 4, 5, 6, 7, 8, 9]

/-- The rational one half. -/
def q_half : ℚ := ⟨1, 2, by norm_num, Nat.coprime_one_left 2⟩

/-- The rational three halves. -/
def q_three_halves : ℚ := ⟨3, 2, by norm_num, by norm_num⟩

/-- C8 counterexample: for the segment `[0.5, 1.5)` at sampling rate 4, the
claimed slice `[start * rate, end * rate) = [2, 6)` is `[2, 3, 4, 5]`, but
the code truncates the seconds first and takes `[0, 4)`, i.e.
`[0, 1, 2, 3]`. -/
theorem C8_counterexample :
    q_half * 4 = 2 ∧ q_three_halves * 4 = 6
    ∧ segment_chunk audio10 q_half q_three_halves 4 = [0, 1, 2, 3]
    ∧ py_slice audio10 2 6 = [2, 3, 4, 5]
    ∧ segment_chunk audio10 q_half q_three_halves 4 ≠ py_slice audio10 2 6 := by
  have hh : q_half = 1 / 2 := by
    rw [← Rat.num_div_den q_half]
    norm_num [q_half]
  have h3 : q_three_halves = 3 / 2 := by
    rw [← Rat.num_div_den q_three_halves]
    norm_num [q_three_halves]
  have hchunk : segment_chunk audio10 q_half q_three_halves 4 = [0, 1, 2, 3] := by
    rw [segment_chunk_trunc]
    rfl
  refine ⟨by rw [hh]; norm_num, by rw [h3]; norm_num, hchunk, by rfl, ?_⟩
  rw [hchunk]
  decide

/-- With no orchestrator-level exception, the first pass emits exactly one
result per segment, carrying the segment identity fields in order. -/
theorem transcribe_segments_go_keys (audio_array : List ℚ) (sampling_rate : ℤ)
    (oracle : ℕ → DiarizationSegment → List ℚ → SegOutcome)
    (validCodes : List String) (confidence_threshold : ℚ) (main_language : String)
    (H : ∀ i seg ch, (oracle i seg ch).isRes = true) :
    ∀ (idx : ℕ) (segs : List DiarizationSegment),
      ((transcribe_segments_go audio_array sampling_rate oracle validCodes
        confidence_threshold main_language idx segs).1).map resultKey
        = segs.map segmentKey := by
  intro idx segs
  induction segs generalizing idx with
  | nil => rfl
  | cons seg rest ih =>
    unfold transcribe_segments_go
    dsimp only
    cases horacle : oracle idx seg
        (segment_chunk audio_array seg.start seg.stop sampling_rate) with
    | exc msg =>
      have hres := H idx seg (segment_chunk audio_array seg.start seg.stop sampling_rate)
      rw [horacle] at hres
      simp [SegOutcome.isRes] at hres
    | res t c l =>
      cases hlow : (decide (c < confidence_threshold)
          || ! evaluate_confidence validCodes c l confidence_threshold main_language) <;>
        simp [hlow, resultKey, segmentKey, ih (idx + 1)]

/-- First-pass failure indices form a sublist of the 1-based index range. -/
theorem transcribe_segments_go_fail_indices (audio_array : List ℚ) (sampling_rate : ℤ)
    (oracle : ℕ → DiarizationSegment → List ℚ → SegOutcome)
    (validCodes : List String) (confidence_threshold : ℚ) (main_language : String) :
    ∀ (idx : ℕ) (segs : List DiarizationSegment),
      List.Sublist (((transcribe_segments_go audio_array sampling_rate oracle validCodes
        confidence_threshold main_language idx segs).2).map FailureRecord.segment_index)
        (List.range' idx segs.length) := by
  intro idx segs
  induction segs generalizing idx with
  | nil => exact List.nil_sublist _
  | cons seg rest ih =>
    unfold transcribe_segments_go
    dsimp only
    rw [List.length_cons, List.range'_succ]
    cases horacle : oracle idx seg
        (segment_chunk audio_array seg.start seg.stop sampling_rate) with
    | exc msg =>
      simpa using List.Sublist.cons₂ idx (ih (idx + 1))
    | res t c l =>
      cases hlow : (decide (c < confidence_threshold)
          || ! evaluate_confidence validCodes c l confidence_threshold main_language)
      · simpa [hlow] using List.Sublist.cons idx (ih (idx + 1))
      · simpa [hlow] using List.Sublist.cons₂ idx (ih (idx + 1))

/-- Every failure record the first pass produces addresses an existing
diarized segment: its 1-based index lies in `[1, n]`. -/
theorem first_pass_lookup_ok (audio_array : List ℚ) (sampling_rate : ℤ)
    (oracle : ℕ → DiarizationSegment → List ℚ → SegOutcome)
    (validCodes : List String) (diarization_segments : List DiarizationSegment)
    (confidence_threshold : ℚ) (main_language : String) :
    ∀ f ∈ (transcribe_segments audio_array sampling_rate oracle validCodes
      diarization_segments confidence_threshold main_language).2,
      failure_lookup_ok diarization_segments f = true := by
  intro f hf
  have hidx : f.segment_index ∈ ((transcribe_segments audio_array sampling_rate
      oracle validCodes diarization_segments confidence_threshold
      main_language).2).map FailureRecord.segment_index :=
    List.mem_map_of_mem FailureRecord.segment_index hf
  have hmem := (transcribe_segments_go_fail_indices audio_array sampling_rate
    oracle validCodes confidence_threshold main_language 1
    diarization_segments).subset hidx
  rw [List.mem_range'_1] at hmem
  unfold failure_lookup_ok py_index
  rw [if_pos (by omega : (0 : ℤ) ≤ (f.segment_index : ℤ) - 1)]
  exact get?_isSome_of_lt (by omega)

/-- Under valid lookups, `retry_transcriptions` completes, preserves the
identity fields of every result, and keeps a sublist of the failures. -/
theorem retry_transcriptions_spec (audio_array : List ℚ) (sampling_rate : ℤ)
    (oracle : ℕ → ℕ → String → DiarizationSegment → List ℚ → SegOutcome)
    (validCodes : List String) (diarization_segments : List DiarizationSegment)
    (failed_segments : List FailureRecord)
    (transcription_segments : List TranscriptionResult)
    (secondary_language : Option String) (confidence_threshold : ℚ)
    (max_retries : ℕ)
    (Hvalid : ∀ f ∈ failed_segments,
      failure_lookup_ok diarization_segments f = true) :
    ∃ out, retry_transcriptions audio_array sampling_rate oracle validCodes
        diarization_segments failed_segments transcription_segments
        secondary_language confidence_threshold max_retries = some out
      ∧ out.1.map resultKey = transcription_segments.map resultKey
      ∧ List.Sublist out.2.1 failed_segments := by
  unfold retry_transcriptions
  cases secondary_language with
  | none =>
    exact ⟨(transcription_segments, failed_segments, 0), rfl, rfl,
      List.Sublist.refl failed_segments⟩
  | some s =>
    dsimp only
    by_cases hg : (py_truthy_str s && is_valid_language_code validCodes s) = true
    · rw [if_pos hg]
      obtain ⟨out, hout, hkeys, hsub, _, _⟩ := retry_loop_spec audio_array
        sampling_rate oracle validCodes diarization_segments
        (py_str_take (py_lower s) 2) confidence_threshold max_retries 1
        transcription_segments failed_segments Hvalid
      exact ⟨out, hout, hkeys, hsub⟩
    · rw [if_neg hg]
      exact ⟨(transcription_segments, failed_segments, 0), rfl, rfl,
        List.Sublist.refl failed_segments⟩

/-- With no orchestrator-level exception in the first pass, the full
pipeline completes with one result per segment (identity fields in input
order) and a failure list whose indices form a sublist of `[1..n]`. -/
theorem full_pipeline_spec (audio_array : List ℚ) (sampling_rate : ℤ)
    (first_oracle : ℕ → DiarizationSegment → List ℚ → SegOutcome)
    (retry_oracle : ℕ → ℕ → String → DiarizationSegment → List ℚ → SegOutcome)
    (validCodes : List String) (diarization_segments : List DiarizationSegment)
    (secondary_language : Option String) (confidence_threshold : ℚ)
    (main_language : String) (max_retries : ℕ)
    (H : ∀ i seg ch, (first_oracle i seg ch).isRes = true) :
    ∃ final, full_pipeline audio_array sampling_rate first_oracle retry_oracle
        validCodes diarization_segments secondary_language confidence_threshold
        main_language max_retries = some final
      ∧ final.1.map resultKey = diarization_segments.map segmentKey
      ∧ List.Sublist (final.2.1.map FailureRecord.segment_index)
          (List.range' 1 diarization_segments.length) := by
  unfold full_pipeline
  dsimp only
  by_cases hcond : (!(transcribe_segments audio_array sampling_rate first_oracle
      validCodes diarization_segments confidence_threshold main_language).2.isEmpty
      && (match secondary_language with
          | some s => py_truthy_str s
          | none => false)) = true
  · rw [if_pos hcond]
    obtain ⟨out, hout, hkeys, hsub⟩ := retry_transcriptions_spec audio_array
      sampling_rate retry_oracle validCodes diarization_segments _ _
      secondary_language confidence_threshold max_retries
      (first_pass_lookup_ok audio_array sampling_rate first_oracle validCodes
        diarization_segments confidence_threshold main_language)
    refine ⟨out, hout, ?_, ?_⟩
    · rw [hkeys]
      exact transcribe_segments_go_keys audio_array sampling_rate first_oracle
        validCodes confidence_threshold main_language H 1 diarization_segments
    · exact (hsub.map FailureRecord.segment_index).trans
        (transcribe_segments_go_fail_indices audio_array sampling_rate
          first_oracle validCodes confidence_threshold main_language 1
          diarization_segments)
  · rw [if_neg hcond]
    exact ⟨_, rfl,
      transcribe_segments_go_keys audio_array sampling_rate first_oracle
        validCodes confidence_threshold main_language H 1 diarization_segments,
      transcribe_segments_go_fail_indices audio_array sampling_rate first_oracle
        validCodes confidence_threshold main_language 1 diarization_segments⟩

/-- C1 (amended): over any list of diarized segments whose first-pass loop
bodies all return a transcription triple (no orchestrator-level exception),
the full pipeline completes and ends with exactly one TranscriptionResult
per input segment — carrying each segment identity in input order — while
the unresolved failure indices form a duplicate-free sublist of the 1-based
input index range, so accepted-count (input-count minus still-failed-count)
plus still-failed-count equals input-count. -/
theorem C1_partition_amended (audio_array : List ℚ) (sampling_rate : ℤ)
    (first_oracle : ℕ → DiarizationSegment → List ℚ → SegOutcome)
    (retry_oracle : ℕ → ℕ → String → DiarizationSegment → List ℚ → SegOutcome)
    (validCodes : List String) (diarization_segments : List DiarizationSegment)
    (secondary_language : Option String) (confidence_threshold : ℚ)
    (main_language : String) (max_retries : ℕ)
    (H : ∀ i seg ch, (first_oracle i seg ch).isRes = true) :
    ∃ final, full_pipeline audio_array sampling_rate first_oracle retry_oracle
        validCodes diarization_segments secondary_language confidence_threshold
        main_language max_retries = some final
      ∧ final.1.map resultKey = diarization_segments.map segmentKey
      ∧ final.1.length = diarization_segments.length
      ∧ List.Sublist (final.2.1.map FailureRecord.segment_index)
          (List.range' 1 diarization_segments.length)
      ∧ (final.2.1.map FailureRecord.segment_index).Nodup
      ∧ final.2.1.length ≤ diarization_segments.length
      ∧ (diarization_segments.length - final.2.1.length) + final.2.1.length
          = diarization_segments.length := by
  obtain ⟨final, heq, hkeys, hsub⟩ := full_pipeline_spec audio_array sampling_rate
    first_oracle retry_oracle validCodes diarization_segments secondary_language
    confidence_threshold main_language max_retries H
  have hlen : final.1.length = diarization_segments.length := by
    have := congrArg List.length hkeys
    simpa using this
  have hflen : final.2.1.length ≤ diarization_segments.length := by
    have := hsub.length_le
    simpa using this
  exact ⟨final, heq, hkeys, hlen, hsub,
    hsub.nodup (List.nodup_range' 1 diarization_segments.length), hflen, by omega⟩

/-- Witness for C1 at a single-segment input whose first pass returns a
triple (no exception) and is accepted. -/
theorem C1_witness :
    (full_pipeline [] 16000 (fun _ _ _ => SegOutcome.res (some "hi") 1 (some "en"))
      (fun _ _ _ _ _ => SegOutcome.exc "e") ["en"] [⟨"A", 0, 1⟩] none 1 "en" 3).map
        (fun out => out.1.length) = some 1
    ∧ (full_pipeline [] 16000 (fun _ _ _ => SegOutcome.res (some "hi") 1 (some "en"))
      (fun _ _ _ _ _ => SegOutcome.exc "e") ["en"] [⟨"A", 0, 1⟩] none 1 "en" 3).map
        (fun out => out.1.map resultKey) = some [("A", 0, 1)] := by
  obtain ⟨final, hfinal, hkeys, hlen, _⟩ := C1_partition_amended [] 16000
    (fun _ _ _ => SegOutcome.res (some "hi") 1 (some "en"))
    (fun _ _ _ _ _ => SegOutcome.exc "e") ["en"] [⟨"A", 0, 1⟩] none 1 "en" 3
    (fun _ _ _ => rfl)
  rw [hfinal]
  constructor
  · simpa using hlen
  · simpa [segmentKey] using hkeys

/-- C1 counterexample: one diarized segment whose first-pass body raises an
exception (so a FailureRecord is created but no TranscriptionResult), and
whose retry is then accepted: the retry drops the failure record but finds
no result to update, so the pipeline completes with zero results and zero
failures for one input segment — the segment is silently dropped and
accepted-count plus still-failed-count is 0, not 1. -/
theorem C1_counterexample :
    full_pipeline [] 16000 (fun _ _ _ => SegOutcome.exc "boom")
      (fun _ _ _ _ _ => SegOutcome.res (some "hola") 1 (some "es"))
      ["es"] [⟨"A", 0, 1⟩] (some "es") 1 "en" 3
      = some ([], [], 1)
    ∧ ([⟨"A", 0, 1⟩] : List DiarizationSegment).length = 1 := by
  exact ⟨by decide, rfl⟩

end Yawt
